import Mathlib

/-!
Verification development for the practice CRUD repository.

The repository holds three near-identical Express route variants over a
Mongo-backed item/product collection:

* `src/controllers/items.controllers.js` (and its twin `src/unnamed/part_001`):
  items with fields `name` / `description` / `quantity`, validators
  `validateItemFull` and `validateItemPartial`, strict id check
  `isValidObjectId`.
* `src/server.js`: products with fields `name` / `price` / `category`,
  validation inlined in the POST and PUT handlers.
* `src/unnamed/part_002`: items with fields `name` / `price` / `category`,
  helpers `isValidId`, `pickAllowedFields`, `validateItemForCreate`,
  `normalizeItem`.

The JavaScript fragments relevant to the claims are embedded shallowly below:
request bodies become a small inductive `JSValue`, JS numbers become the
three-way `JNum` (NaN / signed infinity / finite rational), objects become
association lists with first-match lookup, and each handler's
validation/payload construction becomes a total Lean function mirroring the
source line by line.
-/

/-- JavaScript numbers as far as this code observes them: `NaN`, the two
infinities, and finite values (modelled as rationals).  The source only
applies `Number.isNaN` and `< 0` comparisons to them. -/
inductive JNum where
  | nan : JNum
  | inf : Bool → JNum
  | fin : ℚ → JNum
deriving Repr, DecidableEq

/-- `Number.isNaN(x)`. -/
def JNum.isNaN : JNum → Bool
  | .nan => true
  | _ => false

/-- The JS comparison `x < 0` (false on NaN, true only on `-Infinity` and
negative finite values). -/
def JNum.ltZero : JNum → Bool
  | .nan => false
  | .inf b => !b
  | .fin q => decide (q < 0)

/-- JSON-ish values appearing in request bodies and stored documents.
`vdate` stands for the opaque `Date` objects the handlers create for
timestamps (carrying an abstract tick).  Arrays are not modelled: none of
the claims exercises array-valued fields.  Absence of a field (JS
`undefined`) is modelled as `Option.none` at lookup sites rather than as a
value. -/
inductive JSValue where
  | vstr : String → JSValue
  | vnum : JNum → JSValue
  | vbool : Bool → JSValue
  | vnull : JSValue
  | vdate : Nat → JSValue
  | vobj : List (String × JSValue) → JSValue

/-- A JS object: association list of fields in insertion order. -/
abbrev Obj := List (String × JSValue)

/-- JS truthiness of a (defined) value. -/
def truthy : JSValue → Bool
  | .vstr s => !(s == "")
  | .vnum n =>
    match n with
    | .nan => false
    | .inf _ => true
    | .fin q => decide (q ≠ 0)
  | .vbool b => b
  | .vnull => false
  | .vdate _ => true
  | .vobj _ => true

/-- `typeof v === "object"` (true for plain objects, dates and `null`;
`null` is always caught earlier by a truthiness test in this code, so it is
omitted here where the source pairs the two checks). -/
def JSValue.isObj : JSValue → Bool
  | .vobj _ => true
  | .vdate _ => true
  | _ => false

/-- The fields of a value: property access on a non-object yields no own
properties (so every lookup returns `undefined`), matching how the handlers
behave on string/number/boolean bodies. -/
def JSValue.fields : JSValue → Obj
  | .vobj o => o
  | _ => []

/-- Property read `o[k]`: first entry with the key (request bodies parsed
from JSON have unique keys). `none` is JS `undefined`. -/
def lookupKey : Obj → String → Option JSValue
  | [], _ => none
  | (k', v') :: rest, k => if k' = k then some v' else lookupKey rest k

/-- `Object.keys(o)` in insertion order. -/
def objKeys : Obj → List String
  | [] => []
  | (k, _) :: rest => k :: objKeys rest

/-- Property write `o[k] = v`: replaces the first entry with the key, or
appends a new entry. -/
def setKey : Obj → String → JSValue → Obj
  | [], k, v => [(k, v)]
  | (k', v') :: rest, k, v =>
    if k' = k then (k, v) :: rest else (k', v') :: setKey rest k v

/-- MongoDB `$set` with the given payload: each payload entry overwrites or
adds the corresponding field of the stored document, touching nothing
else. -/
def applySet (d : Obj) (p : Obj) : Obj :=
  p.foldl (fun acc kv => setKey acc kv.1 kv.2) d

/-- Truthiness of a possibly-undefined value (`undefined` is falsy). -/
def otruthy : Option JSValue → Bool
  | none => false
  | some v => truthy v

/-- `x !== undefined`. -/
def odef (v : Option JSValue) : Bool := v.isSome

/-- `typeof x === "string"` (false on `undefined`). -/
def oIsString : Option JSValue → Bool
  | some (.vstr _) => true
  | _ => false

/-- `typeof x === "number"` (false on `undefined`; true on NaN and the
infinities, which are of number type in JS). -/
def oIsNumber : Option JSValue → Bool
  | some (.vnum _) => true
  | _ => false

/-- Read a value known to be a string (used only after a `typeof` check in
the source; the default is never reached on the guarded paths). -/
def oStr : Option JSValue → String
  | some (.vstr s) => s
  | _ => ""

/-- The nullish-coalescing operator `x ?? d`. -/
def nullishD : Option JSValue → JSValue → JSValue
  | none, d => d
  | some .vnull, d => d
  | some v, _ => v

/-- Whitespace characters removed by JS `String.prototype.trim` (the ASCII
ones; the exotic Unicode space characters are not modelled). -/
def isWsChar (c : Char) : Bool :=
  decide (c ∈ " \t\n\r".data)

/-- Drop leading whitespace from a character list. -/
def dropWs : List Char → List Char
  | [] => []
  | c :: rest => if isWsChar c then dropWs rest else c :: rest

/-- JS `s.trim()`: strip whitespace from both ends. -/
def jsTrim (s : String) : String :=
  String.mk ((dropWs ((dropWs s.data).reverse)).reverse)

/-- Digit value of a decimal digit character. -/
def digitVal (c : Char) : Option Nat :=
  if c.isDigit then some (c.toNat - 48) else none

/-- Parse a nonempty run of decimal digits as a natural number. -/
def parseNatChars (l : List Char) : Option Nat :=
  match l with
  | [] => none
  | _ =>
    l.foldl (fun acc c =>
      match acc, digitVal c with
      | some n, some d => some (n * 10 + d)
      | _, _ => none) (some 0)

/-- Split a character list at the first `'.'`, if any. -/
def breakAtDot : List Char → List Char × Option (List Char)
  | [] => ([], none)
  | c :: rest =>
    if c == '.' then ([], some rest)
    else
      let p := breakAtDot rest
      (c :: p.1, p.2)

/-- Parse an unsigned decimal numeral `digits [. digits]` as a rational. -/
def parseDecChars (l : List Char) : Option ℚ :=
  match breakAtDot l with
  | (intPart, none) => (parseNatChars intPart).map (fun n => (n : ℚ))
  | (intPart, some fracPart) =>
    if fracPart.any (fun c => c == '.') then none
    else
      match intPart, fracPart with
      | [], [] => none
      | [], _ =>
        (parseNatChars fracPart).map
          (fun f => (f : ℚ) / ((10 : ℚ) ^ fracPart.length))
      | _, [] => (parseNatChars intPart).map (fun n => (n : ℚ))
      | _, _ =>
        match parseNatChars intPart, parseNatChars fracPart with
        | some n, some f => some ((n : ℚ) + (f : ℚ) / ((10 : ℚ) ^ fracPart.length))
        | _, _ => none

/-- JS `ToNumber` on a string: blank strings convert to `0`, decimal
numerals (with optional sign and fraction) to their value, `Infinity`
spellings to the infinities, and everything else to NaN.  Hexadecimal and
exponent forms are not modelled; no claim exercises them. -/
def strToNum (s : String) : JNum :=
  let t := jsTrim s
  if t = "" then .fin 0
  else if t = "Infinity" ∨ t = "+Infinity" then .inf true
  else if t = "-Infinity" then .inf false
  else
    match t.data with
    | '-' :: rest =>
      match parseDecChars rest with
      | some q => .fin (-q)
      | none => .nan
    | '+' :: rest =>
      match parseDecChars rest with
      | some q => .fin q
      | none => .nan
    | l =>
      match parseDecChars l with
      | some q => .fin q
      | none => .nan

/-- JS `Number(v)` coercion on the modelled values: numbers pass through,
strings are parsed, `true`/`false` become `1`/`0`, `null` becomes `0`,
plain objects give NaN (their default string conversion is not numeric) and
dates give their tick. -/
def toNumber : JSValue → JNum
  | .vnum n => n
  | .vstr s => strToNum s
  | .vbool b => .fin (if b then 1 else 0)
  | .vnull => .fin 0
  | .vdate t => .fin (t : ℚ)
  | .vobj _ => .nan

theorem lookupKey_setKey (d : Obj) (k : String) (v : JSValue) (k' : String) :
    lookupKey (setKey d k v) k' = if k = k' then some v else lookupKey d k' := by
  induction d with
  | nil => simp [setKey, lookupKey]
  | cons hd tl ih =>
    obtain ⟨a, b⟩ := hd
    by_cases h1 : a = k
    · subst h1
      by_cases h2 : a = k' <;> simp [setKey, lookupKey, h2]
    · by_cases h2 : a = k'
      · have hkk : ¬ k = k' := fun h => h1 (h2.trans h.symm)
        have hkk' : ¬ k' = k := fun h => hkk h.symm
        simp [setKey, lookupKey, h1, h2, hkk, hkk']
      · simp [setKey, lookupKey, h1, h2, ih]

theorem objKeys_setKey_of_mem (d : Obj) (k : String) (v : JSValue)
    (h : k ∈ objKeys d) : objKeys (setKey d k v) = objKeys d := by
  induction d with
  | nil => simp [objKeys] at h
  | cons hd tl ih =>
    obtain ⟨a, b⟩ := hd
    by_cases h1 : a = k
    · simp [setKey, h1, objKeys]
    · simp [objKeys] at h
      rcases h with h | h
      · exact absurd h.symm h1
      · simp [setKey, h1, objKeys, ih h]

theorem setKey_eq_append_of_not_mem (d : Obj) (k : String) (v : JSValue)
    (h : k ∉ objKeys d) : setKey d k v = d ++ [(k, v)] := by
  induction d with
  | nil => simp [setKey]
  | cons hd tl ih =>
    obtain ⟨a, b⟩ := hd
    simp [objKeys] at h
    have h1 : ¬ a = k := fun hh => h.1 hh.symm
    simp [setKey, h1, ih h.2]

theorem mem_objKeys_setKey (d : Obj) (k : String) (v : JSValue) (x : String)
    (h : x ∈ objKeys (setKey d k v)) : x ∈ objKeys d ∨ x = k := by
  induction d with
  | nil =>
    simp [setKey, objKeys] at h
    exact Or.inr h
  | cons hd tl ih =>
    obtain ⟨a, b⟩ := hd
    by_cases h1 : a = k
    · simp [setKey, h1, objKeys] at h
      rcases h with h | h
      · exact Or.inr h
      · exact Or.inl (by simp [objKeys, h])
    · simp [setKey, h1, objKeys] at h
      rcases h with h | h
      · exact Or.inl (by simp [objKeys, h])
      · rcases ih h with h2 | h2
        · exact Or.inl (by simp [objKeys, h2])
        · exact Or.inr h2

theorem lookupKey_applySet_of_not_mem (d p : Obj) (k : String)
    (h : k ∉ objKeys p) : lookupKey (applySet d p) k = lookupKey d k := by
  induction p generalizing d with
  | nil => rfl
  | cons hd tl ih =>
    obtain ⟨a, b⟩ := hd
    simp [objKeys] at h
    have step : applySet d ((a, b) :: tl) = applySet (setKey d a b) tl := rfl
    rw [step, ih (setKey d a b) h.2, lookupKey_setKey]
    exact if_neg (fun hh => h.1 hh.symm)

theorem lookupKey_mem_of_some (o : Obj) (k : String) (v : JSValue)
    (h : lookupKey o k = some v) : k ∈ objKeys o := by
  induction o with
  | nil => simp [lookupKey] at h
  | cons hd tl ih =>
    obtain ⟨a, b⟩ := hd
    by_cases h1 : a = k
    · simp [objKeys, h1]
    · simp [lookupKey, h1] at h
      simp [objKeys, ih h]

theorem lookupKey_eq_none_of_not_mem (o : Obj) (k : String)
    (h : k ∉ objKeys o) : lookupKey o k = none := by
  cases hl : lookupKey o k with
  | none => rfl
  | some v => exact absurd (lookupKey_mem_of_some o k v hl) h

/-- The hexadecimal digit characters (both cases), as accepted by the
storage driver's 24-character identifier form. -/
def hexDigitChars : List Char := "0123456789abcdefABCDEF".data

/-- Is `c` a hexadecimal digit? -/
def isHexDigit (c : Char) : Bool := decide (c ∈ hexDigitChars)

/-- The lowercase hexadecimal digit characters, the alphabet of the
canonical serialized identifier. -/
def lowerHexDigitChars : List Char := "0123456789abcdef".data

/-- Is `c` a lowercase hexadecimal digit? -/
def isLowerHexDigit (c : Char) : Bool := decide (c ∈ lowerHexDigitChars)

/-- ASCII lowercasing of one character. -/
def lowerChar (c : Char) : Char :=
  if 'A' ≤ c ∧ c ≤ 'Z' then Char.ofNat (c.toNat + 32) else c

/-- Modelled from the spec: the storage engine's identifier validity
predicate (`ObjectId.isValid` of the mongodb driver, an external
collaborator whose source is not in the repository).  Per the spec it
accepts the 24-character hexadecimal form and also the loosely-formatted
12-character binary form that re-serializes differently. -/
def objectIdIsValid (s : String) : Bool :=
  s.length == 12 || (s.length == 24 && s.data.all isHexDigit)

/-- Lowercase hex digit for a nibble value. -/
def nibbleChar (n : Nat) : Char := lowerHexDigitChars.getD (n % 16) '0'

/-- Hex-encode a character list, two lowercase hex digits per character
(character codes taken as bytes; identifiers are ASCII). -/
def hexEncodeChars : List Char → List Char
  | [] => []
  | c :: rest =>
    nibbleChar (c.toNat / 16 % 16) :: nibbleChar (c.toNat % 16) :: hexEncodeChars rest

/-- Modelled from the spec: `String(new ObjectId(s))`, the canonical
re-serialization of a parsed identifier (mongodb driver, external to the
repository).  A 24-character hex input re-serializes to its lowercased
self; a 12-character binary-form input re-serializes to the 24-character
hex encoding of its bytes. -/
def objectIdToString (s : String) : String :=
  if s.length == 24 then String.mk (s.data.map lowerChar)
  else String.mk (hexEncodeChars s.data)

/-- The spec's "canonical 24-character hex form of a valid identifier":
exactly 24 characters, all lowercase hexadecimal digits.  Written from the
spec's words, for comparison with the code's validators. -/
def canonicalHex24 (s : String) : Bool :=
  s.length == 24 && s.data.all isLowerHexDigit

namespace Controllers

/-- `isValidObjectId` from `src/controllers/items.controllers.js` (also in
`src/unnamed/part_001`): driver validity plus the round-trip check
`String(new ObjectId(id)) === id`. -/
def isValidObjectId (s : String) : Bool :=
  objectIdIsValid s && (objectIdToString s == s)

/-- `validateItemFull` from `src/controllers/items.controllers.js`
(error messages reproduced without the quote marks). -/
def validateItemFull (body : JSValue) : Option String :=
  if !(truthy body) || !body.isObj then some "Body must be a JSON object"
  else
    let nm := lookupKey body.fields "name"
    if !(otruthy nm) || !(oIsString nm) || ((jsTrim (oStr nm)) == "") then
      some "Field name is required and must be a non-empty string"
    else
      let ds := lookupKey body.fields "description"
      if odef ds && !(oIsString ds) then some "Field description must be a string"
      else
        let qt := lookupKey body.fields "quantity"
        if odef qt && !(oIsNumber qt) then some "Field quantity must be a number"
        else none

/-- The `allowed` whitelist of `validateItemPartial`. -/
def allowedFields : List String := ["name", "description", "quantity"]

/-- `validateItemPartial` from `src/controllers/items.controllers.js`. -/
def validateItemPartial (body : JSValue) : Option String :=
  if !(truthy body) || !body.isObj then some "Body must be a JSON object"
  else
    let ks := objKeys body.fields
    if ks.length == 0 then some "PATCH body cannot be empty"
    else
      match ks.find? (fun k => !(allowedFields.contains k)) with
      | some k => some ("Unknown field " ++ k)
      | none =>
        let nm := lookupKey body.fields "name"
        if odef nm && (!(oIsString nm) || ((jsTrim (oStr nm)) == "")) then
          some "Field name must be a non-empty string"
        else
          let ds := lookupKey body.fields "description"
          if odef ds && !(oIsString ds) then some "Field description must be a string"
          else
            let qt := lookupKey body.fields "quantity"
            if odef qt && !(oIsNumber qt) then some "Field quantity must be a number"
            else none

/-- The insert document built by `createItem` after validation passes:
`{ name: req.body.name.trim(), description: req.body.description ?? "",
quantity: req.body.quantity ?? 0, createdAt, updatedAt }`. -/
def createDoc (body : JSValue) (now : Nat) : Obj :=
  [("name", .vstr (jsTrim (oStr (lookupKey body.fields "name")))),
   ("description", nullishD (lookupKey body.fields "description") (.vstr "")),
   ("quantity", nullishD (lookupKey body.fields "quantity") (.vnum (.fin 0))),
   ("createdAt", .vdate now),
   ("updatedAt", .vdate now)]

/-- The `$set` replacement built by `putItem` after validation passes
(same fields as the insert document but no `createdAt`). -/
def putDoc (body : JSValue) (now : Nat) : Obj :=
  [("name", .vstr (jsTrim (oStr (lookupKey body.fields "name")))),
   ("description", nullishD (lookupKey body.fields "description") (.vstr "")),
   ("quantity", nullishD (lookupKey body.fields "quantity") (.vnum (.fin 0))),
   ("updatedAt", .vdate now)]

/-- The `$set` patch built by `patchItem` after validation passes:
`{ ...req.body, updatedAt: new Date() }`, then `name` trimmed in place when
truthy. -/
def patchDoc (body : JSValue) (now : Nat) : Obj :=
  let d := setKey body.fields "updatedAt" (.vdate now)
  if otruthy (lookupKey d "name") then
    setKey d "name" (.vstr (jsTrim (oStr (lookupKey d "name"))))
  else d

end Controllers

namespace Server

/-- The `POST /api/products` handler of `src/server.js`: validation and the
insert document, up to the storage call. -/
def postProduct (body : JSValue) (now : Nat) : Except String Obj :=
  let o := body.fields
  let nm := lookupKey o "name"
  if !(otruthy nm) || !(oIsString nm) || ((jsTrim (oStr nm)) == "") then
    .error "name is required"
  else
    let p : JNum :=
      match lookupKey o "price" with
      | none => .fin 0
      | some v => toNumber v
    if p.isNaN || p.ltZero then .error "price must be a non-negative number"
    else
      let cat := lookupKey o "category"
      .ok [("name", .vstr (jsTrim (oStr nm))),
           ("price", .vnum p),
           ("category", .vstr (if oIsString cat && !((jsTrim (oStr cat)) == "")
                               then jsTrim (oStr cat) else "general")),
           ("createdAt", .vdate now),
           ("updatedAt", .vdate now)]

/-- The `PUT /api/products/:id` handler of `src/server.js`: the `update`
object it assembles field by field (every field optional) and sends as a
`$set`, or the first validation error. -/
def putUpdate (body : JSValue) (now : Nat) : Except String Obj :=
  let o := body.fields
  let nmStep : Except String Obj :=
    match lookupKey o "name" with
    | none => .ok []
    | some (.vstr s) =>
      if jsTrim s == "" then .error "name must be a non-empty string"
      else .ok [("name", .vstr (jsTrim s))]
    | some _ => .error "name must be a non-empty string"
  match nmStep with
  | .error e => .error e
  | .ok u1 =>
    let prStep : Except String Obj :=
      match lookupKey o "price" with
      | none => .ok u1
      | some v =>
        let p := toNumber v
        if p.isNaN || p.ltZero then .error "price must be a non-negative number"
        else .ok (u1 ++ [("price", .vnum p)])
    match prStep with
    | .error e => .error e
    | .ok u2 =>
      match lookupKey o "category" with
      | none => .ok (u2 ++ [("updatedAt", .vdate now)])
      | some (.vstr s) =>
        .ok (u2 ++ [("category", .vstr (if jsTrim s == "" then "general" else jsTrim s)),
                    ("updatedAt", .vdate now)])
      | some _ => .error "category must be a string"

end Server

namespace Part002

/-- `isValidId` from `src/unnamed/part_002`: only the driver's validity
predicate, with no round-trip check. -/
def isValidId (s : String) : Bool := objectIdIsValid s

/-- `pickAllowedFields` from `src/unnamed/part_002`: keeps `name`, `price`,
`category` when present and silently drops every other key. -/
def pickAllowedFields (body : JSValue) : Obj :=
  let o := body.fields
  (match lookupKey o "name" with
   | some v => [("name", v)]
   | none => []) ++
  (match lookupKey o "price" with
   | some v => [("price", v)]
   | none => []) ++
  (match lookupKey o "category" with
   | some v => [("category", v)]
   | none => [])

/-- `validateItemForCreate` from `src/unnamed/part_002`: accumulates an
error list (empty means valid). -/
def validateItemForCreate (body : JSValue) : List String :=
  (if !(truthy body) || !body.isObj then ["body must be a JSON object"] else []) ++
  (let nm := lookupKey body.fields "name"
   if !(otruthy nm) || !(oIsString nm) || ((jsTrim (oStr nm)) == "") then
     ["name is required (non-empty string)"]
   else []) ++
  (match lookupKey body.fields "price" with
   | none => []
   | some v =>
     let p := toNumber v
     if p.isNaN || p.ltZero then ["price must be a non-negative number"] else []) ++
  (match lookupKey body.fields "category" with
   | none => []
   | some (.vstr _) => []
   | some _ => ["category must be a string"])

/-- The insert document built by `POST /api/items` of `src/unnamed/part_002`
after `validateItemForCreate` returns no errors. -/
def createDoc (body : JSValue) (now : Nat) : Obj :=
  let o := body.fields
  [("name", .vstr (jsTrim (oStr (lookupKey o "name")))),
   ("price", .vnum (match lookupKey o "price" with
     | none => .fin 0
     | some v => toNumber v)),
   ("category", .vstr (match lookupKey o "category" with
     | some (.vstr s) => if jsTrim s == "" then "general" else jsTrim s
     | _ => "general")),
   ("createdAt", .vdate now),
   ("updatedAt", .vdate now)]

/-- `normalizeItem` from `src/unnamed/part_002`: picks the allowed fields,
optionally requires `name`, validates and normalizes each present field,
and returns the update object or the first error. -/
def normalizeItem (body : JSValue) (requireAllFields : Bool) : Except String Obj :=
  let data := pickAllowedFields body
  if requireAllFields && !(odef (lookupKey data "name")) then
    .error "PUT requires full item: name is required"
  else
    let nmStep : Except String Obj :=
      match lookupKey data "name" with
      | none => .ok []
      | some (.vstr s) =>
        if jsTrim s == "" then .error "name must be a non-empty string"
        else .ok [("name", .vstr (jsTrim s))]
      | some _ => .error "name must be a non-empty string"
    match nmStep with
    | .error e => .error e
    | .ok u1 =>
      let prStep : Except String Obj :=
        match lookupKey data "price" with
        | none => .ok u1
        | some v =>
          let p := toNumber v
          if p.isNaN || p.ltZero then .error "price must be a non-negative number"
          else .ok (u1 ++ [("price", .vnum p)])
      match prStep with
      | .error e => .error e
      | .ok u2 =>
        match lookupKey data "category" with
        | none => .ok u2
        | some (.vstr s) =>
          .ok (u2 ++ [("category", .vstr (if jsTrim s == "" then "general" else jsTrim s))])
        | some _ => .error "category must be a string"

/-- The full `$set` document built by `PUT /api/items/:id` of
`src/unnamed/part_002`: normalization with `requireAllFields`, then
defaults for the optional fields (`name` is guaranteed present by the
normalizer; the `getD` default on it stands for the unreachable
`undefined`). -/
def putDoc (body : JSValue) (now : Nat) : Except String Obj :=
  match normalizeItem body true with
  | .error e => .error e
  | .ok v =>
    .ok [("name", (lookupKey v "name").getD (.vstr "")),
         ("price", (lookupKey v "price").getD (.vnum (.fin 0))),
         ("category", (lookupKey v "category").getD (.vstr "general")),
         ("updatedAt", .vdate now)]

/-- The `$set` document built by `PATCH /api/items/:id` of
`src/unnamed/part_002`: normalization without `requireAllFields`, the
emptiness rejection, then the `updatedAt` stamp. -/
def patchDoc (body : JSValue) (now : Nat) : Except String Obj :=
  match normalizeItem body false with
  | .error e => .error e
  | .ok u =>
    if (objKeys u).length == 0 then .error "PATCH requires at least one field"
    else .ok (setKey u "updatedAt" (.vdate now))

end Part002

theorem objKeys_append (a b : Obj) : objKeys (a ++ b) = objKeys a ++ objKeys b := by
  induction a with
  | nil => rfl
  | cons hd tl ih =>
    obtain ⟨k, v⟩ := hd
    simp [objKeys, ih]

theorem listMapFixed_iff {α : Type} (f : α → α) (l : List α) :
    l.map f = l ↔ ∀ x ∈ l, f x = x := by
  induction l with
  | nil => simp
  | cons a tl ih => simp [ih]

theorem hexEncodeChars_length (l : List Char) :
    (hexEncodeChars l).length = 2 * l.length := by
  induction l with
  | nil => rfl
  | cons c tl ih => simp [hexEncodeChars, ih]; ring

theorem lowerChar_fix_iff (c : Char) (h : isHexDigit c = true) :
    lowerChar c = c ↔ isLowerHexDigit c = true := by
  have hm : c ∈ hexDigitChars := of_decide_eq_true h
  have hall : hexDigitChars.all
      (fun c => ((lowerChar c == c) == isLowerHexDigit c)) = true := by decide
  have hbe : (lowerChar c == c) = isLowerHexDigit c := by
    simpa using List.all_eq_true.mp hall c hm
  rw [← hbe]
  exact beq_iff_eq.symm

theorem isHexDigit_of_lower (c : Char) (h : isLowerHexDigit c = true) :
    isHexDigit c = true := by
  have hm : c ∈ lowerHexDigitChars := of_decide_eq_true h
  have hall : lowerHexDigitChars.all (fun c => isHexDigit c) = true := by decide
  exact List.all_eq_true.mp hall c hm

theorem isValidObjectId_eq_canonical (s : String) :
    Controllers.isValidObjectId s = canonicalHex24 s := by
  obtain ⟨data⟩ := s
  by_cases h24 : data.length = 24
  · have hb24 : ((String.mk data).length == 24) = true := by
      simp [String.length, h24]
    have hb12 : ((String.mk data).length == 12) = false := by
      simp only [String.length, beq_eq_false_iff_ne]
      omega
    unfold Controllers.isValidObjectId objectIdIsValid objectIdToString canonicalHex24
    simp only [hb24, hb12, Bool.false_or, Bool.true_and, if_pos rfl]
    rw [Bool.eq_iff_iff]
    simp only [Bool.and_eq_true, beq_iff_eq, List.all_eq_true, String.ext_iff]
    constructor
    · rintro ⟨hhex, hmap⟩ c hc
      have hfix : lowerChar c = c := (listMapFixed_iff lowerChar data).mp hmap c hc
      exact (lowerChar_fix_iff c (hhex c hc)).mp hfix
    · intro hlow
      refine ⟨fun c hc => isHexDigit_of_lower c (hlow c hc), ?_⟩
      exact (listMapFixed_iff lowerChar data).mpr
        (fun c hc => (lowerChar_fix_iff c (isHexDigit_of_lower c (hlow c hc))).mpr (hlow c hc))
  · have hb24 : ((String.mk data).length == 24) = false := by
      simp only [String.length, beq_eq_false_iff_ne]
      omega
    by_cases h12 : data.length = 12
    · have hne : (String.mk (hexEncodeChars data) == String.mk data) = false := by
        rw [beq_eq_false_iff_ne]
        intro heq
        have hd2 : hexEncodeChars data = data := congrArg String.data heq
        have hlen := congrArg List.length hd2
        rw [hexEncodeChars_length] at hlen
        omega
      have hb24' : (data.length == 24) = false := by
        simp only [beq_eq_false_iff_ne]
        omega
      unfold Controllers.isValidObjectId objectIdIsValid objectIdToString canonicalHex24
      simp [String.length, hb24', hne, h24, h12]
    · have hb24' : (data.length == 24) = false := by
        simp only [beq_eq_false_iff_ne]
        omega
      have hb12' : (data.length == 12) = false := by
        simp only [beq_eq_false_iff_ne]
        omega
      unfold Controllers.isValidObjectId objectIdIsValid canonicalHex24
      simp [String.length, hb24', hb12']

theorem validateItemFull_quantity_check (o : Obj) (v : JSValue)
    (h : Controllers.validateItemFull (.vobj o) = none)
    (hv : lookupKey o "quantity" = some v) : oIsNumber (some v) = true := by
  unfold Controllers.validateItemFull at h
  simp only [JSValue.fields] at h
  split at h
  · simp at h
  · split at h
    · simp at h
    · split at h
      · simp at h
      · split at h
        · simp at h
        · rename_i hq
          rw [hv] at hq
          simpa [odef] using hq

theorem validateItemFull_eq_none (o : Obj) (s : String)
    (hn : lookupKey o "name" = some (.vstr s)) (hs : jsTrim s ≠ "")
    (hd : (odef (lookupKey o "description") && !(oIsString (lookupKey o "description"))) = false)
    (hq : (odef (lookupKey o "quantity") && !(oIsNumber (lookupKey o "quantity"))) = false) :
    Controllers.validateItemFull (.vobj o) = none := by
  have hs0 : s ≠ "" := by
    intro h
    subst h
    exact hs rfl
  unfold Controllers.validateItemFull
  simp only [JSValue.fields]
  split
  · rename_i hcond
    exact absurd hcond (by simp [truthy, JSValue.isObj])
  · split
    · rename_i hcond
      exfalso
      rw [hn] at hcond
      simp [otruthy, truthy, oIsString, oStr, hs0, hs] at hcond
    · split
      · rename_i hcond
        exact absurd hcond (by simp [hd])
      · split
        · rename_i hcond
          exact absurd hcond (by simp [hq])
        · rfl

theorem postProduct_price_error (o : Obj) (v : JSValue) (t : Nat)
    (h1 : otruthy (lookupKey o "name") = true)
    (h2 : oIsString (lookupKey o "name") = true)
    (h3 : (jsTrim (oStr (lookupKey o "name")) == "") = false)
    (hv : lookupKey o "price" = some v)
    (hp : ((toNumber v).isNaN || (toNumber v).ltZero) = true) :
    Server.postProduct (.vobj o) t = .error "price must be a non-negative number" := by
  unfold Server.postProduct
  simp only [JSValue.fields, hv]
  rw [if_neg (by simp [h1, h2, h3]), if_pos hp]

theorem postProduct_ok (o : Obj) (v : JSValue) (t : Nat)
    (h1 : otruthy (lookupKey o "name") = true)
    (h2 : oIsString (lookupKey o "name") = true)
    (h3 : (jsTrim (oStr (lookupKey o "name")) == "") = false)
    (hv : lookupKey o "price" = some v)
    (hp : ((toNumber v).isNaN || (toNumber v).ltZero) = false) :
    Server.postProduct (.vobj o) t =
      .ok [("name", .vstr (jsTrim (oStr (lookupKey o "name")))),
           ("price", .vnum (toNumber v)),
           ("category", .vstr (if oIsString (lookupKey o "category")
                && !((jsTrim (oStr (lookupKey o "category"))) == "")
              then jsTrim (oStr (lookupKey o "category")) else "general")),
           ("createdAt", .vdate t),
           ("updatedAt", .vdate t)] := by
  unfold Server.postProduct
  simp only [JSValue.fields, hv]
  rw [if_neg (by simp [h1, h2, h3]), if_neg (by simp [hp])]

/-- C1 counterexample: the quantity variant accepts a present negative
quantity.  The body `{name: "a", quantity: -5}` passes `validateItemFull`
(so normalization succeeds, contradicting the claim that a present negative
numeric field always fails), and the produced insert payload carries the
negative quantity. -/
theorem C1_counterexample :
    Controllers.validateItemFull
      (.vobj [("name", .vstr "a"), ("quantity", .vnum (.fin (-5)))]) = none ∧
    lookupKey (Controllers.createDoc
        (.vobj [("name", .vstr "a"), ("quantity", .vnum (.fin (-5)))]) 0) "quantity"
      = some (.vnum (.fin (-5))) ∧
    (JNum.fin (-5)).ltZero = true :=
  ⟨rfl, rfl, by decide⟩

/-- C1 (amended): in the quantity variant (`validateItemFull`), a present
quantity is rejected exactly when it is not of number type — NaN, infinite
and negative numbers all pass; in the price variant (`POST /api/products`),
a present price is rejected exactly when its `Number(...)` coercion is NaN
or negative. -/
theorem C1_amended :
    (∀ (o : Obj) (v : JSValue), lookupKey o "quantity" = some v →
        oIsNumber (some v) = false →
        Controllers.validateItemFull (.vobj o) ≠ none) ∧
    (∀ (o : Obj) (s : String) (n : JNum),
        lookupKey o "name" = some (.vstr s) → jsTrim s ≠ "" →
        (odef (lookupKey o "description") && !(oIsString (lookupKey o "description"))) = false →
        lookupKey o "quantity" = some (.vnum n) →
        Controllers.validateItemFull (.vobj o) = none) ∧
    (∀ (o : Obj) (v : JSValue) (t : Nat),
        otruthy (lookupKey o "name") = true →
        oIsString (lookupKey o "name") = true →
        (jsTrim (oStr (lookupKey o "name")) == "") = false →
        lookupKey o "price" = some v →
        ((toNumber v).isNaN || (toNumber v).ltZero) = true →
        Server.postProduct (.vobj o) t = .error "price must be a non-negative number") ∧
    (∀ (o : Obj) (v : JSValue) (t : Nat),
        otruthy (lookupKey o "name") = true →
        oIsString (lookupKey o "name") = true →
        (jsTrim (oStr (lookupKey o "name")) == "") = false →
        lookupKey o "price" = some v →
        ((toNumber v).isNaN || (toNumber v).ltZero) = false →
        ∃ u, Server.postProduct (.vobj o) t = .ok u) := by
  refine ⟨?_, ?_, ?_, ?_⟩
  · intro o v hv hnum h
    have := validateItemFull_quantity_check o v h hv
    rw [this] at hnum
    exact absurd hnum (by simp)
  · intro o s n hn hs hd hq
    exact validateItemFull_eq_none o s hn hs hd (by rw [hq]; rfl)
  · intro o v t h1 h2 h3 hv hp
    exact postProduct_price_error o v t h1 h2 h3 hv hp
  · intro o v t h1 h2 h3 hv hp
    exact ⟨_, postProduct_ok o v t h1 h2 h3 hv hp⟩

/-- Witness for C1 (amended) at concrete inputs: a string-valued quantity
is rejected, a NaN quantity is accepted, a negative price is rejected with
the non-negative-number error, and a positive price is accepted. -/
theorem C1_amended_witness :
    Controllers.validateItemFull
      (.vobj [("name", .vstr "a"), ("quantity", .vstr "x")]) ≠ none ∧
    Controllers.validateItemFull
      (.vobj [("name", .vstr "a"), ("quantity", .vnum .nan)]) = none ∧
    Server.postProduct (.vobj [("name", .vstr "p"), ("price", .vnum (.fin (-3)))]) 0
      = .error "price must be a non-negative number" ∧
    (∃ u, Server.postProduct
        (.vobj [("name", .vstr "p"), ("price", .vnum (.fin 2))]) 0 = .ok u) :=
  ⟨C1_amended.1 _ (.vstr "x") rfl rfl,
   C1_amended.2.1 _ "a" .nan rfl (by decide) rfl rfl,
   C1_amended.2.2.1 _ (.vnum (.fin (-3))) 0 rfl rfl (by decide) rfl (by decide),
   C1_amended.2.2.2 _ (.vnum (.fin 2)) 0 rfl rfl (by decide) rfl (by decide)⟩

/-- C2 counterexample: `isValidId` of `src/unnamed/part_002` returns true
on the 12-character binary-form lookalike `"aaaaaaaaaaaa"`, which is not
the canonical 24-character hex form and does not survive the re-serialization
round trip — so the identifier validator, as the claim states it for every
validator of the repository, is not false on all non-canonical strings. -/
theorem C2_counterexample :
    Part002.isValidId "aaaaaaaaaaaa" = true ∧
    objectIdToString "aaaaaaaaaaaa" ≠ "aaaaaaaaaaaa" ∧
    canonicalHex24 "aaaaaaaaaaaa" = false :=
  ⟨by decide, by decide, by decide⟩

/-- C2 (amended): the round-trip validator `isValidObjectId` of the
controllers variant returns true exactly on the canonical 24-character
lowercase-hex identifiers; the `isValidId` of `src/unnamed/part_002` checks
only the storage driver's validity predicate and in particular accepts
every 12-character string. -/
theorem C2_amended :
    (∀ s : String, Controllers.isValidObjectId s = canonicalHex24 s) ∧
    (∀ s : String, s.length = 12 → Part002.isValidId s = true) := by
  refine ⟨isValidObjectId_eq_canonical, ?_⟩
  intro s h
  unfold Part002.isValidId objectIdIsValid
  simp [h]

/-- Witness for C2 (amended) at concrete inputs. -/
theorem C2_amended_witness :
    Controllers.isValidObjectId "aaaaaaaaaaaa" = canonicalHex24 "aaaaaaaaaaaa" ∧
    Part002.isValidId "aaaaaaaaaaaa" = true :=
  ⟨C2_amended.1 "aaaaaaaaaaaa", C2_amended.2 "aaaaaaaaaaaa" (by decide)⟩

theorem validateItemPartial_keys_allowed (o : Obj)
    (h : Controllers.validateItemPartial (.vobj o) = none) :
    ∀ k ∈ objKeys o, Controllers.allowedFields.contains k = true := by
  intro k hk
  unfold Controllers.validateItemPartial at h
  simp only [JSValue.fields] at h
  split at h
  · simp at h
  · split at h
    · simp at h
    · split at h
      · simp at h
      · rename_i hf
        have := List.find?_eq_none.mp hf k hk
        simpa using this

theorem validateItemPartial_unknown (o : Obj) (k : String)
    (hk : k ∈ objKeys o) (hbad : Controllers.allowedFields.contains k = false) :
    ∃ k0, Controllers.validateItemPartial (.vobj o)
      = some ("Unknown field " ++ k0) := by
  unfold Controllers.validateItemPartial
  simp only [JSValue.fields]
  rw [if_neg (by simp [truthy, JSValue.isObj])]
  have hne : (objKeys o).length ≠ 0 := by
    intro h0
    rw [List.length_eq_zero] at h0
    rw [h0] at hk
    simp at hk
  rw [if_neg (by simpa using hne)]
  cases hf : (objKeys o).find? (fun k => !(Controllers.allowedFields.contains k)) with
  | none =>
    exfalso
    have := List.find?_eq_none.mp hf k hk
    simp [hbad] at this
    exact absurd this (by simpa using hbad)
  | some k0 =>
    exact ⟨k0, rfl⟩

/-- C3 counterexample: in `src/unnamed/part_002`, a Partial-mode body with
the unrecognized key `junk` (alongside a recognized one) normalizes
successfully: `pickAllowedFields` silently drops the unknown key instead of
rejecting it, and the PATCH payload is produced. -/
theorem C3_counterexample :
    Part002.patchDoc (.vobj [("name", .vstr "x"), ("junk", .vnum (.fin 1))]) 7
      = .ok [("name", .vstr "x"), ("updatedAt", .vdate 7)] := rfl

/-- C3 (amended): the controllers variant behaves as claimed — an empty
Partial body fails with "PATCH body cannot be empty" and any unrecognized
key fails with an unknown-field error; the `part_002` variant instead
silently drops unrecognized keys, failing (with "PATCH requires at least
one field") only when no recognized key is present at all. -/
theorem C3_amended :
    Controllers.validateItemPartial (.vobj []) = some "PATCH body cannot be empty" ∧
    (∀ (o : Obj) (k : String), k ∈ objKeys o →
        Controllers.allowedFields.contains k = false →
        ∃ k0, Controllers.validateItemPartial (.vobj o)
          = some ("Unknown field " ++ k0)) ∧
    (∀ (o : Obj) (t : Nat),
        lookupKey o "name" = none → lookupKey o "price" = none →
        lookupKey o "category" = none →
        Part002.patchDoc (.vobj o) t = .error "PATCH requires at least one field") := by
  refine ⟨rfl, validateItemPartial_unknown, ?_⟩
  intro o t hn hp hc
  unfold Part002.patchDoc Part002.normalizeItem Part002.pickAllowedFields
  simp [JSValue.fields, hn, hp, hc, lookupKey, objKeys]

/-- Witness for C3 (amended) at a concrete input: the body `{junk: 1}`. -/
theorem C3_amended_witness :
    Controllers.validateItemPartial (.vobj []) = some "PATCH body cannot be empty" ∧
    (∃ k0, Controllers.validateItemPartial (.vobj [("junk", .vnum (.fin 1))])
        = some ("Unknown field " ++ k0)) ∧
    Part002.patchDoc (.vobj [("junk", .vnum (.fin 1))]) 7
      = .error "PATCH requires at least one field" :=
  ⟨C3_amended.1,
   C3_amended.2.1 _ "junk" (by decide) (by decide),
   C3_amended.2.2 _ 7 rfl rfl rfl⟩

/-- C4 counterexample: the `PUT /api/products/:id` handler of
`src/server.js` accepts a Replace-mode body with no `name` at all — the
empty body produces the update payload `{updatedAt}` that is sent to
storage, contradicting the claim that a Replace-mode body without a name
never reaches storage. -/
theorem C4_counterexample :
    lookupKey ([] : Obj) "name" = none ∧
    Server.putUpdate (.vobj []) 3 = .ok [("updatedAt", .vdate 3)] :=
  ⟨rfl, rfl⟩

/-- C4 (amended): `name` is required (absent, non-string and
whitespace-only values are all rejected) in Create mode everywhere and in
Replace mode for the controllers variant (`validateItemFull`) and the
`part_002` variant (`normalizeItem` with `requireAllFields`); but the
`PUT /api/products/:id` handler of `src/server.js` treats `name` as
optional and accepts bodies without it. -/
theorem C4_amended :
    (∀ o : Obj,
        (otruthy (lookupKey o "name") && oIsString (lookupKey o "name")
          && !(jsTrim (oStr (lookupKey o "name")) == "")) = false →
        Controllers.validateItemFull (.vobj o)
          = some "Field name is required and must be a non-empty string") ∧
    (∀ (o : Obj) (t : Nat), lookupKey o "name" = none →
        Part002.putDoc (.vobj o) t
          = .error "PUT requires full item: name is required") ∧
    (∀ (o : Obj) (t : Nat),
        (otruthy (lookupKey o "name") && oIsString (lookupKey o "name")
          && !(jsTrim (oStr (lookupKey o "name")) == "")) = false →
        Server.postProduct (.vobj o) t = .error "name is required") ∧
    (∀ t : Nat, Server.putUpdate (.vobj []) t = .ok [("updatedAt", .vdate t)]) := by
  refine ⟨?_, ?_, ?_, fun t => rfl⟩
  · intro o h
    unfold Controllers.validateItemFull
    simp only [JSValue.fields]
    rw [if_neg (by simp [truthy, JSValue.isObj])]
    have hcond : (!(otruthy (lookupKey o "name")) || !(oIsString (lookupKey o "name"))
        || (jsTrim (oStr (lookupKey o "name")) == "")) = true := by
      revert h
      cases otruthy (lookupKey o "name") <;> cases oIsString (lookupKey o "name") <;>
        cases (jsTrim (oStr (lookupKey o "name")) == "") <;> simp
    rw [if_pos hcond]
  · intro o t hn
    cases hp : lookupKey o "price" <;> cases hc : lookupKey o "category" <;>
      simp [Part002.putDoc, Part002.normalizeItem, Part002.pickAllowedFields,
            JSValue.fields, hn, hp, hc, lookupKey, odef]
  · intro o t h
    unfold Server.postProduct
    simp only [JSValue.fields]
    have hcond : (!(otruthy (lookupKey o "name")) || !(oIsString (lookupKey o "name"))
        || (jsTrim (oStr (lookupKey o "name")) == "")) = true := by
      revert h
      cases otruthy (lookupKey o "name") <;> cases oIsString (lookupKey o "name") <;>
        cases (jsTrim (oStr (lookupKey o "name")) == "") <;> simp
    rw [if_pos hcond]

/-- Witness for C4 (amended) at concrete inputs: bodies without a name. -/
theorem C4_amended_witness :
    Controllers.validateItemFull (.vobj [])
      = some "Field name is required and must be a non-empty string" ∧
    Part002.putDoc (.vobj [("price", .vnum (.fin 1))]) 0
      = .error "PUT requires full item: name is required" ∧
    Server.postProduct (.vobj []) 0 = .error "name is required" ∧
    Server.putUpdate (.vobj []) 5 = .ok [("updatedAt", .vdate 5)] :=
  ⟨C4_amended.1 [] (by decide),
   C4_amended.2.1 _ 0 rfl,
   C4_amended.2.2.1 [] 0 (by decide),
   C4_amended.2.2.2 5⟩

theorem patchDoc_keys (o : Obj) (t : Nat)
    (h : Controllers.validateItemPartial (.vobj o) = none) :
    objKeys (Controllers.patchDoc (.vobj o) t) = objKeys o ++ ["updatedAt"] := by
  have hall := validateItemPartial_keys_allowed o h
  have hupd : "updatedAt" ∉ objKeys o := by
    intro hm
    have := hall "updatedAt" hm
    simp [Controllers.allowedFields] at this
  unfold Controllers.patchDoc
  simp only [JSValue.fields]
  rw [setKey_eq_append_of_not_mem o "updatedAt" (.vdate t) hupd]
  have hkeys : objKeys (o ++ [("updatedAt", JSValue.vdate t)])
      = objKeys o ++ ["updatedAt"] := by
    rw [objKeys_append]
    rfl
  by_cases hname : otruthy (lookupKey (o ++ [("updatedAt", JSValue.vdate t)]) "name") = true
  · rw [if_pos hname]
    cases hl : lookupKey (o ++ [("updatedAt", JSValue.vdate t)]) "name" with
    | none =>
      rw [hl] at hname
      simp [otruthy] at hname
    | some v =>
      have hmem := lookupKey_mem_of_some _ "name" v hl
      rw [objKeys_setKey_of_mem _ "name" _ hmem, hkeys]
  · rw [if_neg hname]
    exact hkeys

/-- C5 counterexample: in `src/server.js`, a successful Replace-mode
normalization of the body `{name: "x"}` produces the payload
`{name, updatedAt}` only — the absent recognized fields `price` and
`category` are NOT filled with their defaults, contradicting the claim. -/
theorem C5_counterexample :
    Server.putUpdate (.vobj [("name", .vstr "x")]) 3
      = .ok [("name", .vstr "x"), ("updatedAt", .vdate 3)] ∧
    lookupKey [("name", JSValue.vstr "x"), ("updatedAt", JSValue.vdate 3)] "price"
      = none ∧
    lookupKey [("name", JSValue.vstr "x"), ("updatedAt", JSValue.vdate 3)] "category"
      = none :=
  ⟨rfl, rfl, rfl⟩

/-- C5 (amended): the controllers Create/Replace payloads and the
`part_002` Replace payload do fill absent recognized fields with their
defaults (`""`/`"general"` and `0`), and the controllers Partial payload
consists of exactly the body's (recognized) fields plus `updatedAt`; but
the `PUT /api/products/:id` handler of `src/server.js` omits absent fields
from its Replace payload instead of defaulting them. -/
theorem C5_amended :
    (∀ (b : JSValue) (t : Nat), Controllers.validateItemFull b = none →
        objKeys (Controllers.createDoc b t)
          = ["name", "description", "quantity", "createdAt", "updatedAt"] ∧
        objKeys (Controllers.putDoc b t)
          = ["name", "description", "quantity", "updatedAt"] ∧
        (lookupKey b.fields "description" = none →
          lookupKey (Controllers.createDoc b t) "description" = some (.vstr "")) ∧
        (lookupKey b.fields "quantity" = none →
          lookupKey (Controllers.createDoc b t) "quantity" = some (.vnum (.fin 0)))) ∧
    (∀ (o : Obj) (t : Nat) (s : String),
        lookupKey o "name" = some (.vstr s) → jsTrim s ≠ "" →
        lookupKey o "price" = none → lookupKey o "category" = none →
        Part002.putDoc (.vobj o) t
          = .ok [("name", .vstr (jsTrim s)), ("price", .vnum (.fin 0)),
                 ("category", .vstr "general"), ("updatedAt", .vdate t)]) ∧
    (∀ (o : Obj) (t : Nat), Controllers.validateItemPartial (.vobj o) = none →
        objKeys (Controllers.patchDoc (.vobj o) t) = objKeys o ++ ["updatedAt"]) := by
  refine ⟨?_, ?_, fun o t h => patchDoc_keys o t h⟩
  · intro b t _
    refine ⟨rfl, rfl, ?_, ?_⟩
    · intro hd
      simp [Controllers.createDoc, hd, nullishD, lookupKey]
    · intro hq
      simp [Controllers.createDoc, hq, nullishD, lookupKey]
  · intro o t s hn hs hp hc
    have hb : (jsTrim s == "") = false := by
      simpa using hs
    unfold Part002.putDoc Part002.normalizeItem Part002.pickAllowedFields
    simp [JSValue.fields, hn, hp, hc, lookupKey, odef, hb]

/-- Witness for C5 (amended) at the concrete body `{name: "n"}`. -/
theorem C5_amended_witness :
    lookupKey (Controllers.createDoc (.vobj [("name", .vstr "n")]) 1) "description"
      = some (.vstr "") ∧
    lookupKey (Controllers.createDoc (.vobj [("name", .vstr "n")]) 1) "quantity"
      = some (.vnum (.fin 0)) ∧
    Part002.putDoc (.vobj [("name", .vstr "n")]) 1
      = .ok [("name", .vstr (jsTrim "n")), ("price", .vnum (.fin 0)),
             ("category", .vstr "general"), ("updatedAt", .vdate 1)] ∧
    objKeys (Controllers.patchDoc (.vobj [("name", .vstr "n")]) 1)
      = objKeys [("name", JSValue.vstr "n")] ++ ["updatedAt"] :=
  ⟨(C5_amended.1 (.vobj [("name", .vstr "n")]) 1 rfl).2.2.1 rfl,
   (C5_amended.1 (.vobj [("name", .vstr "n")]) 1 rfl).2.2.2 rfl,
   C5_amended.2.1 [("name", JSValue.vstr "n")] 1 "n" rfl (by decide) rfl rfl,
   C5_amended.2.2 [("name", JSValue.vstr "n")] 1 rfl⟩

theorem validateItemFull_description_check (o : Obj) (v : JSValue)
    (h : Controllers.validateItemFull (.vobj o) = none)
    (hv : lookupKey o "description" = some v) : oIsString (some v) = true := by
  unfold Controllers.validateItemFull at h
  simp only [JSValue.fields] at h
  split at h
  · simp at h
  · split at h
    · simp at h
    · split at h
      · simp at h
      · rename_i hd
        rw [hv] at hd
        simpa [odef] using hd

/-- C6 counterexample: `" "` is a non-empty string, yet
`normalize({name: " "}, Create)` fails in both Create variants — the claim
quantifies over all non-empty strings, but whitespace-only names are
rejected. -/
theorem C6_counterexample :
    (" " : String) ≠ "" ∧
    Controllers.validateItemFull (.vobj [("name", .vstr " ")])
      = some "Field name is required and must be a non-empty string" ∧
    Part002.validateItemForCreate (.vobj [("name", .vstr " ")])
      = ["name is required (non-empty string)"] :=
  ⟨by decide, rfl, rfl⟩

/-- C6 (amended): for every string `s` that is non-empty after trimming,
`normalize({name: s}, Create)` succeeds in both Create variants and the
payload's name is the trimmed `s`. -/
theorem C6_amended :
    ∀ (s : String) (t : Nat), jsTrim s ≠ "" →
      Controllers.validateItemFull (.vobj [("name", .vstr s)]) = none ∧
      lookupKey (Controllers.createDoc (.vobj [("name", .vstr s)]) t) "name"
        = some (.vstr (jsTrim s)) ∧
      Part002.validateItemForCreate (.vobj [("name", .vstr s)]) = [] ∧
      lookupKey (Part002.createDoc (.vobj [("name", .vstr s)]) t) "name"
        = some (.vstr (jsTrim s)) := by
  intro s t hs
  have hs0 : s ≠ "" := by
    intro h
    subst h
    exact hs rfl
  have hb : (jsTrim s == "") = false := by simpa using hs
  have hb0 : (s == "") = false := by simpa using hs0
  refine ⟨validateItemFull_eq_none [("name", .vstr s)] s rfl hs rfl rfl, ?_, ?_, ?_⟩
  · simp [Controllers.createDoc, lookupKey, oStr, JSValue.fields]
  · unfold Part002.validateItemForCreate
    simp [JSValue.fields, lookupKey, truthy, JSValue.isObj, otruthy, oIsString,
      oStr, hb, hb0]
  · simp [Part002.createDoc, lookupKey, oStr, JSValue.fields]

/-- Witness for C6 (amended) at `s = " Widget "`. -/
theorem C6_amended_witness :
    Controllers.validateItemFull (.vobj [("name", .vstr " Widget ")]) = none ∧
    lookupKey (Controllers.createDoc (.vobj [("name", .vstr " Widget ")]) 0) "name"
      = some (.vstr (jsTrim " Widget ")) ∧
    Part002.validateItemForCreate (.vobj [("name", .vstr " Widget ")]) = [] ∧
    lookupKey (Part002.createDoc (.vobj [("name", .vstr " Widget ")]) 0) "name"
      = some (.vstr (jsTrim " Widget ")) :=
  C6_amended " Widget " 0 (by decide)

/-- C7 counterexample: the description variant does NOT trim — the body
`{name: "a", description: " x "}` normalizes successfully and the payload
stores the description verbatim with its surrounding whitespace, while the
claim says the stored value is always the trimmed string. -/
theorem C7_counterexample :
    Controllers.validateItemFull
      (.vobj [("name", .vstr "a"), ("description", .vstr " x ")]) = none ∧
    lookupKey (Controllers.createDoc
        (.vobj [("name", .vstr "a"), ("description", .vstr " x ")]) 0) "description"
      = some (.vstr " x ") ∧
    jsTrim " x " ≠ " x " :=
  ⟨rfl, rfl, by decide⟩

/-- C7 (amended): in the category variants the present secondary field is
stored trimmed, with empty-after-trim replaced by the sentinel "general"
(shown for `normalizeItem` of `part_002`); in the description variant the
present secondary field is stored verbatim — untrimmed and possibly
whitespace-only. -/
theorem C7_amended :
    (∀ (o : Obj) (r : Bool) (ns s : String),
        lookupKey o "name" = some (.vstr ns) → jsTrim ns ≠ "" →
        lookupKey o "price" = none →
        lookupKey o "category" = some (.vstr s) →
        Part002.normalizeItem (.vobj o) r
          = .ok [("name", .vstr (jsTrim ns)),
                 ("category", .vstr (if jsTrim s == "" then "general" else jsTrim s))]) ∧
    (∀ (o : Obj) (t : Nat) (v : JSValue),
        Controllers.validateItemFull (.vobj o) = none →
        lookupKey o "description" = some v →
        lookupKey (Controllers.createDoc (.vobj o) t) "description" = some v) := by
  constructor
  · intro o r ns s hn hns hp hc
    have hb : (jsTrim ns == "") = false := by simpa using hns
    unfold Part002.normalizeItem Part002.pickAllowedFields
    simp [JSValue.fields, hn, hp, hc, lookupKey, odef, hb]
  · intro o t v h hv
    have hstr := validateItemFull_description_check o v h hv
    cases v with
    | vstr s => simp [Controllers.createDoc, lookupKey, JSValue.fields, hv, nullishD]
    | vnum n => simp [oIsString] at hstr
    | vbool b => simp [oIsString] at hstr
    | vnull => simp [oIsString] at hstr
    | vdate d => simp [oIsString] at hstr
    | vobj oo => simp [oIsString] at hstr

/-- Witness for C7 (amended) at concrete bodies. -/
theorem C7_amended_witness :
    Part002.normalizeItem (.vobj [("name", .vstr "a"), ("category", .vstr " c ")]) false
      = .ok [("name", .vstr (jsTrim "a")),
             ("category", .vstr (if jsTrim " c " == "" then "general" else jsTrim " c "))] ∧
    lookupKey (Controllers.createDoc
        (.vobj [("name", .vstr "b"), ("description", .vstr "d")]) 0) "description"
      = some (.vstr "d") :=
  ⟨C7_amended.1 _ false "a" " c " rfl (by decide) rfl rfl,
   C7_amended.2 _ 0 (.vstr "d") rfl rfl⟩

/-- C8: the update payloads of full-replace (`putItem`) and partial-update
(`patchItem`) never carry an `_id` or `createdAt` key, so applying the
`$set` to a stored document leaves every field outside
`{name, description, quantity, updatedAt}` — in particular `_id` and
`createdAt` — unchanged. -/
theorem C8_update_frame :
    ∀ (d : Obj) (bf : JSValue) (o : Obj) (t : Nat) (k : String),
      Controllers.validateItemFull bf = none →
      Controllers.validateItemPartial (.vobj o) = none →
      k ∉ (["name", "description", "quantity", "updatedAt"] : List String) →
      "_id" ∉ objKeys (Controllers.putDoc bf t) ∧
      "createdAt" ∉ objKeys (Controllers.putDoc bf t) ∧
      "_id" ∉ objKeys (Controllers.patchDoc (.vobj o) t) ∧
      "createdAt" ∉ objKeys (Controllers.patchDoc (.vobj o) t) ∧
      lookupKey (applySet d (Controllers.putDoc bf t)) k = lookupKey d k ∧
      lookupKey (applySet d (Controllers.patchDoc (.vobj o) t)) k = lookupKey d k := by
  intro d bf o t k _ hpartial hk
  have hputkeys : objKeys (Controllers.putDoc bf t)
      = ["name", "description", "quantity", "updatedAt"] := rfl
  have hpatchmem : ∀ x, x ∈ objKeys (Controllers.patchDoc (.vobj o) t) →
      x ∈ Controllers.allowedFields ∨ x = "updatedAt" := by
    intro x hx
    rw [patchDoc_keys o t hpartial] at hx
    rcases List.mem_append.mp hx with hx | hx
    · have := validateItemPartial_keys_allowed o hpartial x hx
      exact Or.inl (by simpa using this)
    · simp at hx
      exact Or.inr hx
  refine ⟨?_, ?_, ?_, ?_, ?_, ?_⟩
  · rw [hputkeys]
    decide
  · rw [hputkeys]
    decide
  · intro hmem
    rcases hpatchmem _ hmem with hm | hm
    · simp [Controllers.allowedFields] at hm
    · simp at hm
  · intro hmem
    rcases hpatchmem _ hmem with hm | hm
    · simp [Controllers.allowedFields] at hm
    · simp at hm
  · refine lookupKey_applySet_of_not_mem d _ k ?_
    rw [hputkeys]
    exact hk
  · refine lookupKey_applySet_of_not_mem d _ k ?_
    intro hmem
    rcases hpatchmem _ hmem with hm | hm
    · apply hk
      have : k ∈ (["name", "description", "quantity"] : List String) := by
        simpa [Controllers.allowedFields] using hm
      fin_cases this <;> decide
    · apply hk
      rw [hm]
      decide

/-- Witness for C8 at a concrete document, bodies and key. -/
theorem C8_update_frame_witness :
    "_id" ∉ objKeys (Controllers.putDoc (.vobj [("name", .vstr "new")]) 4) ∧
    "createdAt" ∉ objKeys (Controllers.putDoc (.vobj [("name", .vstr "new")]) 4) ∧
    "_id" ∉ objKeys (Controllers.patchDoc (.vobj [("quantity", .vnum (.fin 2))]) 4) ∧
    "createdAt" ∉ objKeys (Controllers.patchDoc (.vobj [("quantity", .vnum (.fin 2))]) 4) ∧
    lookupKey (applySet [("_id", JSValue.vstr "i"), ("createdAt", JSValue.vdate 9)]
        (Controllers.putDoc (.vobj [("name", .vstr "new")]) 4)) "createdAt"
      = lookupKey [("_id", JSValue.vstr "i"), ("createdAt", JSValue.vdate 9)] "createdAt" ∧
    lookupKey (applySet [("_id", JSValue.vstr "i"), ("createdAt", JSValue.vdate 9)]
        (Controllers.patchDoc (.vobj [("quantity", .vnum (.fin 2))]) 4)) "createdAt"
      = lookupKey [("_id", JSValue.vstr "i"), ("createdAt", JSValue.vdate 9)] "createdAt" :=
  C8_update_frame [("_id", JSValue.vstr "i"), ("createdAt", JSValue.vdate 9)]
    (.vobj [("name", .vstr "new")]) [("quantity", .vnum (.fin 2))] 4 "createdAt"
    rfl rfl (by decide)

/-- C9: Replace is idempotent up to `updatedAt` — applying `putItem`'s
`$set` twice with the same valid body leaves every field other than
`updatedAt` exactly as after the first application. -/
theorem C9_put_idempotent :
    ∀ (d : Obj) (b : JSValue) (t1 t2 : Nat) (k : String),
      Controllers.validateItemFull b = none →
      k ≠ "updatedAt" →
      lookupKey (applySet (applySet d (Controllers.putDoc b t1))
          (Controllers.putDoc b t2)) k
        = lookupKey (applySet d (Controllers.putDoc b t1)) k := by
  intro d b t1 t2 k _ hk
  simp only [Controllers.putDoc, applySet, List.foldl, lookupKey_setKey]
  by_cases h1 : ("name" = k) <;> by_cases h2 : ("description" = k) <;>
    by_cases h3 : ("quantity" = k) <;> simp [h1, h2, h3, Ne.symm hk]

/-- Witness for C9 at a concrete document, body and key. -/
theorem C9_put_idempotent_witness :
    lookupKey (applySet (applySet [("name", JSValue.vstr "old"), ("extra", JSValue.vbool true)]
        (Controllers.putDoc (.vobj [("name", .vstr "new")]) 1))
        (Controllers.putDoc (.vobj [("name", .vstr "new")]) 2)) "name"
      = lookupKey (applySet [("name", JSValue.vstr "old"), ("extra", JSValue.vbool true)]
        (Controllers.putDoc (.vobj [("name", .vstr "new")]) 1)) "name" :=
  C9_put_idempotent [("name", JSValue.vstr "old"), ("extra", JSValue.vbool true)]
    (.vobj [("name", .vstr "new")]) 1 2 "name" rfl (by decide)

/-- C10: every update payload built by create, full-replace or
partial-update in the controllers variant has keys drawn exclusively from
`{name, description, quantity, createdAt, updatedAt}` — an unrecognized
body key is never persisted. -/
theorem C10_payload_keys :
    ∀ (bf : JSValue) (o : Obj) (t : Nat),
      Controllers.validateItemFull bf = none →
      Controllers.validateItemPartial (.vobj o) = none →
      (objKeys (Controllers.createDoc bf t)).all
        (fun k => (["name", "description", "quantity", "createdAt", "updatedAt"] : List String).contains k) = true ∧
      (objKeys (Controllers.putDoc bf t)).all
        (fun k => (["name", "description", "quantity", "createdAt", "updatedAt"] : List String).contains k) = true ∧
      (objKeys (Controllers.patchDoc (.vobj o) t)).all
        (fun k => (["name", "description", "quantity", "createdAt", "updatedAt"] : List String).contains k) = true := by
  intro bf o t _ hp
  refine ⟨rfl, rfl, ?_⟩
  rw [List.all_eq_true]
  intro k hk
  rw [patchDoc_keys o t hp] at hk
  rcases List.mem_append.mp hk with hk | hk
  · have := validateItemPartial_keys_allowed o hp k hk
    have hmem : k ∈ Controllers.allowedFields := by simpa using this
    fin_cases hmem <;> decide
  · simp at hk
    subst hk
    decide

/-- Witness for C10 at concrete bodies. -/
theorem C10_payload_keys_witness :
    (objKeys (Controllers.createDoc (.vobj [("name", .vstr "n")]) 6)).all
      (fun k => (["name", "description", "quantity", "createdAt", "updatedAt"] : List String).contains k) = true ∧
    (objKeys (Controllers.putDoc (.vobj [("name", .vstr "n")]) 6)).all
      (fun k => (["name", "description", "quantity", "createdAt", "updatedAt"] : List String).contains k) = true ∧
    (objKeys (Controllers.patchDoc (.vobj [("description", .vstr "d")]) 6)).all
      (fun k => (["name", "description", "quantity", "createdAt", "updatedAt"] : List String).contains k) = true :=
  C10_payload_keys (.vobj [("name", .vstr "n")]) [("description", .vstr "d")] 6 rfl rfl
